import Mathlib

/-!
A verification development for the agent/tool-execution core of the
`grok-code` terminal assistant.  Python source files are shallowly embedded
as executable Lean definitions; filesystem resolution, subprocesses, JSON
parsing and HTML unescaping are abstracted as explicit function parameters,
everything else is translated directly from the code.
-/

namespace GrokCode

/-! ## Python string primitives

Executable models of the Python `str` operations the tools rely on
(`in`, `count`, `replace`, `strip`, `split`, `lower`).  All work on
`List Char`; `String` wrappers convert via `.data`. -/

/-- Python whitespace for `str.strip`/`str.split` and the regex class `\s`
(ASCII subset; the embedded commands and paths are ASCII). -/
def isPySpace (c : Char) : Bool :=
  c == ' ' || c == '\t' || c == '\n' || c == '\r' || c == '\x0b' || c == '\x0c'

/-- ASCII lowering, modelling `str.lower()` on the ASCII inputs involved. -/
def lowerL (l : List Char) : List Char := l.map Char.toLower

/-- `needle` is a prefix of `hay`. -/
def isPrefixL : List Char → List Char → Bool
  | [], _ => true
  | _ :: _, [] => false
  | a :: as, b :: bs => a == b && isPrefixL as bs

/-- Python `needle in hay` (substring test). -/
def containsL (hay needle : List Char) : Bool :=
  match hay with
  | [] => isPrefixL needle []
  | _ :: t => isPrefixL needle hay || containsL t needle

/-- Python `needle in hay` on `String`s. -/
def strContains (hay needle : String) : Bool := containsL hay.data needle.data

/-- Python `hay.count(needle)` with explicit fuel; every recursive step
shortens `hay`, so any fuel above `hay.length` is never exhausted. -/
def countGo (fuel : Nat) (hay needle : List Char) : Nat :=
  match fuel with
  | 0 => 0
  | fuel + 1 =>
    match hay, needle with
    | hay, [] => hay.length + 1
    | [], _ :: _ => 0
    | a :: t, b :: bs =>
      if isPrefixL (b :: bs) (a :: t) then 1 + countGo fuel ((a :: t).drop (b :: bs).length) (b :: bs)
      else countGo fuel t (b :: bs)

/-- Python `hay.count(needle)`: non-overlapping occurrences, left to right;
an empty needle counts `len(hay) + 1` occurrences. -/
def countL (hay needle : List Char) : Nat := countGo (hay.length + 1) hay needle

/-- Python `hay.replace(old, new)` with explicit fuel; every recursive step
shortens `hay`, so any fuel above `hay.length` is never exhausted. -/
def replaceAllGo (fuel : Nat) (hay needle repl : List Char) : List Char :=
  match fuel with
  | 0 => hay
  | fuel + 1 =>
    match hay, needle with
    | hay, [] => repl ++ (hay.map (fun c => [c] ++ repl)).flatten
    | [], _ :: _ => []
    | a :: t, b :: bs =>
      if isPrefixL (b :: bs) (a :: t) then
        repl ++ replaceAllGo fuel ((a :: t).drop (b :: bs).length) (b :: bs) repl
      else a :: replaceAllGo fuel t (b :: bs) repl

/-- Python `hay.replace(old, new)` (all occurrences, non-overlapping, left
to right; empty `old` interleaves `new` around every character). -/
def replaceAllL (hay needle repl : List Char) : List Char :=
  replaceAllGo (hay.length + 1) hay needle repl

/-- Python `hay.replace(old, new, 1)`: first occurrence only. -/
def replaceOneL (hay needle repl : List Char) : List Char :=
  match hay, needle with
  | hay, [] => repl ++ hay
  | [], _ :: _ => []
  | a :: t, b :: bs =>
    if isPrefixL (b :: bs) (a :: t) then repl ++ (a :: t).drop (b :: bs).length
    else a :: replaceOneL t (b :: bs) repl

/-- Python `s.strip()` (whitespace from both ends). -/
def stripL (l : List Char) : List Char :=
  ((l.dropWhile isPySpace).reverse.dropWhile isPySpace).reverse

/-- Python `s.split()` with explicit fuel; every recursive step shortens
the list (`dropWhile` never lengthens), so any fuel above `l.length` is
never exhausted. -/
def pySplitGo (fuel : Nat) (l : List Char) : List (List Char) :=
  match fuel with
  | 0 => []
  | fuel + 1 =>
    match l with
    | [] => []
    | c :: t =>
      if isPySpace c then pySplitGo fuel t
      else (c :: t.takeWhile (fun d => !isPySpace d)) ::
        pySplitGo fuel (t.dropWhile (fun d => !isPySpace d))

/-- Python `s.split()` with no argument: split on whitespace runs, no empty
fields. -/
def pySplit (l : List Char) : List (List Char) := pySplitGo (l.length + 1) l

/-! ## A small regex engine

`src/grok_code/permissions.py` matches the dangerous classifier with
`re.search(pattern, text, re.IGNORECASE)`.  The patterns use only literals,
`\s+`, `\s*`, a single optional character, character classes, `.*`, `\b`,
`^` and `$`, so we implement exactly those constructs and transcribe each
pattern.  Case-insensitivity is realised by lowering the ASCII input and
keeping the patterns lowercase. -/

/-- One regex construct, as used by the dangerous-classifier patterns. -/
inductive RE
  | lit (s : List Char)
  | wsPlus
  | wsStar
  | optChar (c : Char)
  | cls (cs : List Char)
  | anyStar
  | wordB
  | endA
deriving DecidableEq

/-- Weight for the termination measure of `matchSeq`. -/
def RE.size : RE → Nat
  | .lit s => s.length + 1
  | .wsPlus => 2
  | _ => 1

/-- Total weight of a pattern. -/
def sizeL : List RE → Nat
  | [] => 0
  | r :: rest => r.size + sizeL rest

/-- Python `\w` (ASCII subset, matching the ASCII inputs involved). -/
def isWordChar (c : Char) : Bool := c.isAlphanum || c == '_'

/-- Does the pattern match some prefix of `input`, with explicit fuel?
`prev` is the character just before `input` (for `\b`).  Every recursive
call strictly decreases `input.length + sizeL pat`, so any fuel above that
measure is never exhausted. -/
def matchSeqGo (fuel : Nat) (pat : List RE) (input : List Char) (prev : Option Char) : Bool :=
  match fuel with
  | 0 => false
  | fuel + 1 =>
    match pat, input, prev with
    | [], _, _ => true
    | .lit [] :: rest, input, prev => matchSeqGo fuel rest input prev
    | .lit (c :: cs) :: rest, input, _ =>
      match input with
      | [] => false
      | a :: t => a == c && matchSeqGo fuel (.lit cs :: rest) t (some a)
    | .wsPlus :: rest, input, _ =>
      match input with
      | [] => false
      | a :: t => isPySpace a && matchSeqGo fuel (.wsStar :: rest) t (some a)
    | .wsStar :: rest, input, prev =>
      matchSeqGo fuel rest input prev ||
        (match input with
         | [] => false
         | a :: t => isPySpace a && matchSeqGo fuel (.wsStar :: rest) t (some a))
    | .optChar c :: rest, input, prev =>
      matchSeqGo fuel rest input prev ||
        (match input with
         | [] => false
         | a :: t => a == c && matchSeqGo fuel rest t (some a))
    | .cls cs :: rest, input, _ =>
      match input with
      | [] => false
      | a :: t => cs.contains a && matchSeqGo fuel rest t (some a)
    | .anyStar :: rest, input, prev =>
      matchSeqGo fuel rest input prev ||
        (match input with
         | [] => false
         | a :: t => (a != '\n') && matchSeqGo fuel (.anyStar :: rest) t (some a))
    | .wordB :: rest, input, prev =>
      (let prevW := match prev with | some c => isWordChar c | none => false
       let nextW := match input with | a :: _ => isWordChar a | [] => false
       prevW != nextW) && matchSeqGo fuel rest input prev
    | .endA :: rest, input, prev =>
      (input.isEmpty || input == ['\n']) && matchSeqGo fuel rest input prev

/-- Does the pattern match some prefix of `input`? -/
def matchSeq (pat : List RE) (input : List Char) (prev : Option Char) : Bool :=
  matchSeqGo (input.length + sizeL pat + 1) pat input prev

/-- Try the pattern at every start position (`re.search` for an unanchored
pattern). -/
def searchAux (pat : List RE) : List Char → Option Char → Bool
  | [], prev => matchSeq pat [] prev
  | a :: t, prev => matchSeq pat (a :: t) prev || searchAux pat t (some a)

/-- A whole pattern: `^`-anchored or free. -/
structure RePat where
  anchoredStart : Bool
  res : List RE
deriving DecidableEq

/-- Python `re.search(pat, input) is not None`. -/
def reSearch (p : RePat) (input : List Char) : Bool :=
  if p.anchoredStart then matchSeq p.res input none else searchAux p.res input none

/-- Literal pattern element from a string. -/
def RE.litS (s : String) : RE := .lit s.data

/-- Unanchored pattern from a list of constructs. -/
def pat (res : List RE) : RePat := ⟨false, res⟩

/-! ## Permission gate (`src/grok_code/permissions.py`) -/

/-- `DANGEROUS_BASH_PATTERNS` (permissions.py lines 27-44), each regex
transcribed into the engine above.  Patterns are kept lowercase; matching
lowers the input (this realises `re.IGNORECASE`). -/
def DANGEROUS_BASH_PATTERNS : List (RePat × String) :=
  [ (pat [.litS "rm", .wsPlus, .litS "-r", .optChar 'f', .wsPlus, .cls ['/', '~']],
     "Recursive delete in root or home directory"),
    (pat [.litS "rm", .wsPlus, .litS "-r", .optChar 'f', .wsPlus, .litS "*"],
     "Recursive delete with wildcard"),
    (pat [.litS "rm", .wsPlus, .litS "-r", .optChar 'f', .wsPlus, .litS ".."],
     "Recursive delete of parent directory"),
    (pat [.litS "sudo", .wsPlus, .litS "rm", .wordB], "Sudo remove command"),
    (pat [.litS ":()", .wsStar, .litS "\x7b"], "Fork bomb pattern"),
    (pat [.litS "mkfs."], "Filesystem formatting command"),
    (pat [.litS "dd", .wsPlus, .litS "if=/dev/"], "Raw disk write"),
    (pat [.litS "chmod", .wsPlus, .litS "-r", .wsPlus, .litS "777"], "Recursive chmod 777"),
    (pat [.litS "chown", .wsPlus, .litS "-r", .wsPlus, .litS "root"], "Recursive chown to root"),
    (pat [.litS "git", .wsPlus, .litS "push", .wsPlus, .anyStar, .litS "--force"], "Force push to git"),
    (pat [.litS "git", .wsPlus, .litS "reset", .wsPlus, .litS "--hard"], "Hard reset git"),
    (pat [.litS "git", .wsPlus, .litS "clean", .wsPlus, .litS "-fd"], "Clean untracked files"),
    (pat [.litS "drop", .wsPlus, .litS "database"], "Drop database"),
    (pat [.litS "drop", .wsPlus, .litS "table"], "Drop table"),
    (pat [.litS "truncate", .wsPlus, .litS "table"], "Truncate table"),
    (pat [.litS ">", .wsStar, .litS "/dev/sd", .cls "abcdefghijklmnopqrstuvwxyz".data],
     "Write to block device") ]

/-- `DANGEROUS_FILE_PATTERNS` (permissions.py lines 46-53).  The first source
pattern `^/(etc|sys|proc|dev|boot)/` is expanded into five anchored literal
alternatives, which is equivalent for `re.search` and preserves the
first-match description. -/
def DANGEROUS_FILE_PATTERNS : List (RePat × String) :=
  [ (⟨true, [.litS "/etc/"]⟩, "Write to system directory"),
    (⟨true, [.litS "/sys/"]⟩, "Write to system directory"),
    (⟨true, [.litS "/proc/"]⟩, "Write to system directory"),
    (⟨true, [.litS "/dev/"]⟩, "Write to system directory"),
    (⟨true, [.litS "/boot/"]⟩, "Write to system directory"),
    (pat [.litS ".ssh/"], "Write to SSH directory"),
    (pat [.litS ".aws/"], "Write to AWS credentials"),
    (pat [.litS ".env", .endA], "Write to environment file"),
    (pat [.litS "credentials"], "Write to credentials file"),
    (pat [.litS ".pem", .endA], "Write to PEM key file") ]

/-- Description of the first pattern that matches (the `for` loops of
`_is_dangerous_bash` / `_is_dangerous_file`). -/
def firstMatch : List (RePat × String) → List Char → Option String
  | [], _ => none
  | (p, desc) :: rest, input => if reSearch p input then some desc else firstMatch rest input

/-- `PermissionManager._is_dangerous_bash` (permissions.py lines 83-88). -/
def isDangerousBash (command : String) : Option String :=
  firstMatch DANGEROUS_BASH_PATTERNS (lowerL command.data)

/-- `PermissionManager._is_dangerous_file` (permissions.py lines 90-95). -/
def isDangerousFile (path : String) : Option String :=
  firstMatch DANGEROUS_FILE_PATTERNS (lowerL path.data)

/-- `ApprovalMode` (permissions.py lines 11-14). -/
inductive ApprovalMode
  | auto
  | approve
  | manual
deriving DecidableEq

/-- A tool-call argument map (the Python `args: dict` restricted to the
string-valued fields the permission system reads). -/
def Args := List (String × String)

/-- Python `args.get(k, "")`. -/
def argsGetD (args : Args) (k : String) : String :=
  match args.find? (fun p => p.1 == k) with
  | some p => p.2
  | none => ""

/-- The mutable fields of `PermissionManager` (mode plus the session and
persistent approval sets, as tool-name/key pairs). -/
structure PermState where
  mode : ApprovalMode
  sessionApprovals : List (String × String)
  persistentApprovals : List (String × String)
deriving DecidableEq

/-- `PermissionManager._get_approval_key` (permissions.py lines 97-111). -/
def getApprovalKey (tool : String) (args : Args) : String :=
  if tool == "bash" then
    let cmd := argsGetD args "command"
    match pySplit (stripL cmd.data) with
    | [] => "bash"
    | w :: _ => ⟨w⟩
  else if tool == "write_file" || tool == "edit_file" then
    let path := argsGetD args "file_path"
    if strContains path "/" then
      (match path.data.reverse.dropWhile (fun c => c != '/') with
       | [] => ""
       | _ :: rest => (⟨rest.reverse⟩ : String)) ++ "/*"
    else path
  else tool

/-- `PermissionManager._is_approved` (permissions.py lines 153-161). -/
def isApproved (st : PermState) (tool key : String) : Bool :=
  st.sessionApprovals.contains (tool, key) || st.persistentApprovals.contains (tool, key)

/-- The danger classification step of `check_permission` (permissions.py
lines 124-128). -/
def dangerReasonOf (tool : String) (args : Args) : Option String :=
  if tool == "bash" then isDangerousBash (argsGetD args "command")
  else if tool == "write_file" || tool == "edit_file" then
    isDangerousFile (argsGetD args "file_path")
  else none

/-- `PermissionManager.check_permission` (permissions.py lines 113-151):
returns `(allowed, danger_reason, approval_key)`. -/
def checkPermission (st : PermState) (tool : String) (args : Args) :
    Bool × Option String × String :=
  let approvalKey := getApprovalKey tool args
  match dangerReasonOf tool args with
  | some reason =>
    if isApproved st tool approvalKey then (true, none, approvalKey)
    else (false, some reason, approvalKey)
  | none =>
    if st.mode == .auto then (true, none, approvalKey)
    else if isApproved st tool approvalKey then (true, none, approvalKey)
    else if st.mode == .approve then
      if tool == "write_file" || tool == "edit_file" || tool == "bash" then
        (false, none, approvalKey)
      else (true, none, approvalKey)
    else (false, none, approvalKey)

/-- `PermissionManager.approve` (permissions.py lines 163-175). -/
def PermState.approveKey (st : PermState) (tool key : String) (persistent : Bool) : PermState :=
  { st with
    sessionApprovals := (tool, key) :: st.sessionApprovals,
    persistentApprovals :=
      if persistent then (tool, key) :: st.persistentApprovals else st.persistentApprovals }

/-! ## Bash tool gate (`src/grok_code/tools/bash.py`) -/

/-- The built-in always-fatal substrings of `BashTool.execute`
(bash.py lines 82-89). -/
def bashDangerousSubstrings : List String :=
  ["rm -rf /", "rm -rf /*", ":()\x7b:|:&\x7d;:", "mkfs.", "dd if=/dev/zero", "> /dev/sda"]

/-- The built-in refuser of `BashTool.execute` (bash.py lines 90-93):
substring test against the lowercased command. -/
def bashBuiltinRefuses (command : String) : Bool :=
  bashDangerousSubstrings.any (fun p => containsL (lowerL command.data) p.data)

/-- Modelled from the spec: `check_requires_permission` is imported by the
bash tool (`from ..permissions import check_requires_permission`) but its
definition is missing from the provided sources; only this caller exists.
Per spec section 4.4 the bash tool "consults the Permission Gate", whose
`check(tool, args)` returns `(allowed, danger_reason?, key)`; the helper is
modelled as that consultation, surfacing the danger reason as the message. -/
def check_requires_permission (st : PermState) (tool : String) (args : Args) : Bool × String :=
  let r := checkPermission st tool args
  (r.1, (r.2.1).getD "Approval required")

/-- Outcome of the gating phase of `BashTool.execute`: refused by the
built-in refuser, waiting on approval, or allowed to spawn the process. -/
inductive BashOutcome
  | refused (msg : String)
  | needsPermission (msg : String)
  | executed
deriving DecidableEq

/-- The gating phase of `BashTool.execute` (bash.py lines 78-104): the
built-in refuser runs first and never spawns a process on a hit; then the
permission gate; the subprocess phase itself is abstracted as `executed`. -/
def bashGate (st : PermState) (command : String) : BashOutcome :=
  if bashBuiltinRefuses command then
    .refused "Error: Refusing to execute potentially dangerous command"
  else
    let r := check_requires_permission st "bash" [("command", command)]
    if !r.1 then
      .needsPermission
        ("⚠️  Permission required:\n" ++ r.2 ++
          "\n\nUse approve_operation tool to approve, or modify the command.")
    else .executed

/-! ## File tools and the ReadSet (`src/grok_code/tools/file_ops.py`)

`Path.expanduser`/`Path.cwd` absolutization and `Path.resolve`
canonicalization are abstracted as the parameters `absOf` and `resolveOf`;
the filesystem is a flat map from resolved path to content (directories and
I/O failures are not modelled). -/

/-- Python `s.lstrip()` on chars. -/
def lstripL (l : List Char) : List Char := l.dropWhile isPySpace

/-- Python `s.rstrip()` on chars. -/
def rstripL (l : List Char) : List Char := (l.reverse.dropWhile isPySpace).reverse

/-- Python `f.readlines()`: lines keep their trailing newline; no trailing
empty line. -/
def pyReadlinesAux : List Char → List Char → List (List Char)
  | [], cur => if cur.isEmpty then [] else [cur.reverse]
  | c :: t, cur =>
    if c == '\n' then (cur.reverse ++ ['\n']) :: pyReadlinesAux t []
    else pyReadlinesAux t (c :: cur)

/-- Python `f.readlines()` from the whole decoded content. -/
def pyReadlines (content : List Char) : List (List Char) := pyReadlinesAux content []

/-- Python `s.split(sep)` for a single-character separator (keeps empty
fields; `"".split(c) == [""]`). -/
def pySplitOn (sep : Char) : List Char → List (List Char)
  | [] => [[]]
  | c :: t =>
    let r := pySplitOn sep t
    if c == sep then [] :: r
    else
      match r with
      | h :: rs => (c :: h) :: rs
      | [] => [[c]]

/-- Python list slice `l[a:b]` for a natural start and integer end. -/
def pySlice {α : Type} (l : List α) (a : Nat) (b : Int) : List α :=
  let bn : Nat := if b < 0 then (Int.ofNat l.length + b).toNat else min b.toNat l.length
  (l.take bn).drop a

/-- Python `f"\x7bi:4\x7d"`: right-align in a field of width 4. -/
def rightAlign4 (n : Nat) : String :=
  let s := toString n
  if s.length < 4 then (String.mk (List.replicate (4 - s.length) ' ')) ++ s else s

/-- Insertion sort, ascending (for `sorted(indent_counts.keys())`). -/
def insertSorted (n : Nat) : List Nat → List Nat
  | [] => [n]
  | m :: t => if n ≤ m then n :: m :: t else m :: insertSorted n t

/-- Ascending sort of naturals. -/
def sortNat (l : List Nat) : List Nat := l.foldr insertSorted []

/-- Python `repr` of an int list, e.g. `[4, 8]`. -/
def fmtNatList (l : List Nat) : String :=
  "[" ++ String.intercalate ", " (l.map toString) ++ "]"

/-- The module state of file_ops.py: the workspace files (resolved path ↦
content) plus the `_read_files` ReadSet (file_ops.py line 11). -/
structure FsState where
  files : List (String × String)
  readFiles : List String
deriving DecidableEq

/-- Map lookup on the flat filesystem. -/
def fsGet (files : List (String × String)) (k : String) : Option String :=
  match files.find? (fun p => p.1 == k) with
  | some p => some p.2
  | none => none

/-- Map update on the flat filesystem. -/
def fsSet (files : List (String × String)) (k v : String) : List (String × String) :=
  if (files.find? (fun p => p.1 == k)).isSome then
    files.map (fun p => if p.1 == k then (k, v) else p)
  else files ++ [(k, v)]

section FileOps

variable (resolveOf : String → String)

/-- `mark_file_read` (file_ops.py lines 14-19), applied to the tool's
already-absolute path: inserts the resolved path. -/
def markFileRead (pabs : String) (rf : List String) : List String :=
  rf.insert (resolveOf pabs)

/-- `has_file_been_read` (file_ops.py lines 22-27). -/
def hasFileBeenRead (pabs : String) (rf : List String) : Bool :=
  rf.contains (resolveOf pabs)

/-- `unmark_file_read` (file_ops.py lines 35-42): set discard. -/
def unmarkFileRead (pabs : String) (rf : List String) : List String :=
  rf.filter (fun q => q != resolveOf pabs)

end FileOps

section FileTools

variable (absOf resolveOf : String → String)

/-- The indentation-detection pass of `ReadTool.execute` (file_ops.py
lines 112-118): positive indents of non-empty, non-comment lines. -/
def indentKeys (selected : List (List Char)) : List Nat :=
  (selected.filterMap (fun line =>
    let stripped := lstripL line
    if !stripped.isEmpty && !(stripped.head? == some '#') then
      let indent := line.length - stripped.length
      if indent > 0 then some indent else none
    else none)).dedup

/-- `ReadTool.execute` (file_ops.py lines 77-127). -/
def readFile (st : FsState) (file_path : String) (offset limit : Option Int) :
    FsState × String :=
  let pabs := absOf file_path
  match fsGet st.files (resolveOf pabs) with
  | none => (st, s!"Error: File not found: {pabs}")
  | some content =>
    let lines := pyReadlines content.data
    let st' : FsState := { st with readFiles := markFileRead resolveOf pabs st.readFiles }
    let startIdx : Nat :=
      match offset with
      | some o => if o > 0 then (o - 1).toNat else 0
      | none => 0
    let endIdx : Int :=
      match limit with
      | some l => if l != 0 then (startIdx : Int) + l else (lines.length : Int)
      | none => (lines.length : Int)
    let selected := pySlice lines startIdx endIdx
    let result := selected.enum.map (fun je =>
      rightAlign4 (startIdx + 1 + je.1) ++ "│" ++ (⟨rstripL je.2⟩ : String))
    if result.isEmpty then (st', "(empty file)")
    else
      let common := (sortNat (indentKeys selected)).take 4
      let output := String.intercalate "\n" result
      let output :=
        if (indentKeys selected).isEmpty then output
        else output ++
          s!"\n\n[Indentation: spaces before content shown exactly. Common indents: {fmtNatList common}]"
      (st', output)

/-- `WriteTool.execute` (file_ops.py lines 160-178).  Parent-directory
creation and write exceptions are not modelled: once the ReadSet check
passes the write succeeds. -/
def writeFile (st : FsState) (file_path content : String) : FsState × String :=
  let pabs := absOf file_path
  if (fsGet st.files (resolveOf pabs)).isSome
      && !(hasFileBeenRead resolveOf pabs st.readFiles) then
    (st, s!"Error: Cannot write to {pabs} - file exists but has not been read first. Read the file before modifying it.")
  else
    ({ files := fsSet st.files (resolveOf pabs) content,
       readFiles := unmarkFileRead resolveOf pabs st.readFiles },
     s!"Successfully wrote {content.length} bytes to {pabs}")

/-- The first line of `content` containing `needle`, with its 0-based index
and indentation (the hint loops of `EditTool.execute`). -/
def findLineWith : List (List Char) → List Char → Nat → Option (Nat × Nat)
  | [], _, _ => none
  | line :: rest, needle, i =>
    if containsL line needle then some (i, line.length - (lstripL line).length)
    else findLineWith rest needle (i + 1)

/-- The not-found diagnostic of `EditTool.execute` (file_ops.py
lines 251-272). -/
def editHint (content old : String) : String :=
  let oldStripped := stripL old.data
  if !oldStripped.isEmpty && containsL content.data oldStripped then
    let target := stripL ((pySplitOn '\n' oldStripped).headD [])
    match findLineWith (pySplitOn '\n' content.data) target 0 with
    | some ie =>
      s!"\n\nHint: Found similar content but indentation doesn't match. Line {ie.1 + 1} has {ie.2} spaces of indentation. Your old_string may have wrong indentation."
    | none => ""
  else if old.length > 20 then
    let firstLine := stripL ((pySplitOn '\n' old.data).headD [])
    if containsL content.data firstLine then
      match findLineWith (pySplitOn '\n' content.data) firstLine 0 with
      | some ie =>
        s!"\n\nHint: Found '{(⟨firstLine.take 40⟩ : String)}...' on line {ie.1 + 1} with {ie.2} spaces indentation. Re-read the file and copy the exact whitespace."
      | none => ""
    else ""
  else ""

/-- `EditTool.execute` (file_ops.py lines 227-294). -/
def editFile (st : FsState) (file_path old new : String) (replace_all : Bool) :
    FsState × String :=
  let pabs := absOf file_path
  match fsGet st.files (resolveOf pabs) with
  | none => (st, s!"Error: File not found: {pabs}")
  | some content =>
    if !(hasFileBeenRead resolveOf pabs st.readFiles) then
      (st, s!"Error: Cannot edit {pabs} - file has not been read first. Read the file before modifying it.")
    else if !(strContains content old) then
      (st, s!"Error: Could not find the specified string in {pabs}.{editHint content old}")
    else
      let count := countL content.data old.data
      if count > 1 && !replace_all then
        (st, s!"Error: Found {count} occurrences of the string. Use replace_all=true to replace all, or provide more context to make the match unique.")
      else
        let newContent : String :=
          if replace_all then ⟨replaceAllL content.data old.data new.data⟩
          else ⟨replaceOneL content.data old.data new.data⟩
        let replacedCount := if replace_all then count else 1
        ({ files := fsSet st.files (resolveOf pabs) newContent,
           readFiles := unmarkFileRead resolveOf pabs st.readFiles },
         s!"Successfully replaced {replacedCount} occurrence(s) in {pabs}")

/-- A file-tool invocation, for traces over the ReadSet state machine. -/
inductive FileOp
  | read (file_path : String) (offset limit : Option Int)
  | write (file_path content : String)
  | edit (file_path old new : String) (replace_all : Bool)
deriving DecidableEq

/-- Dispatch one file-tool call. -/
def runOp (st : FsState) : FileOp → FsState × String
  | .read p o l => readFile absOf resolveOf st p o l
  | .write p c => writeFile absOf resolveOf st p c
  | .edit p old new ra => editFile absOf resolveOf st p old new ra

/-- The path argument of a file-tool call. -/
def FileOp.path : FileOp → String
  | .read p _ _ => p
  | .write p _ => p
  | .edit p _ _ _ => p

/-- Is the call a read? -/
def FileOp.isRead : FileOp → Bool
  | .read _ _ _ => true
  | _ => false

/-- Error results are the strings starting with `Error:` (the uniform tool
contract). -/
def startsWithError (s : String) : Bool := isPrefixL "Error:".data s.data

/-- A call succeeds when it takes none of its error branches; the guards
here are exactly the branch conditions of `readFile`/`writeFile`/`editFile`
(whose error branches all return `Error:` strings and whose success
branches do not). -/
def opSucceeds (st : FsState) (op : FileOp) : Bool :=
  match op with
  | .read p _ _ => (fsGet st.files (resolveOf (absOf p))).isSome
  | .write p _ =>
    !((fsGet st.files (resolveOf (absOf p))).isSome &&
      !(hasFileBeenRead resolveOf (absOf p) st.readFiles))
  | .edit p old _ ra =>
    match fsGet st.files (resolveOf (absOf p)) with
    | none => false
    | some content =>
      hasFileBeenRead resolveOf (absOf p) st.readFiles &&
      strContains content old &&
      !(decide (countL content.data old.data > 1) && !ra)

/-- Run a trace of file-tool calls. -/
def runOps (st : FsState) : List FileOp → FsState
  | [] => st
  | op :: ops => runOps (runOp absOf resolveOf st op).1 ops

/-- The per-call touch log of a trace: resolved path, read?, succeeded?. -/
def touchLog (st : FsState) : List FileOp → List (String × Bool × Bool)
  | [] => []
  | op :: ops =>
    (resolveOf (absOf op.path), op.isRead, opSucceeds absOf resolveOf st op) ::
      touchLog (runOp absOf resolveOf st op).1 ops

/-- Scanning a touch log from the end: was the last successful touch of
`rp` a read?  `none` when no successful touch exists. -/
def lastReadTouch (rp : String) : List (String × Bool × Bool) → Option Bool
  | [] => none
  | e :: log =>
    match lastReadTouch rp log with
    | some b => some b
    | none => if e.1 == rp && e.2.2 then some e.2.1 else none

end FileTools

/-! ## Task store (`src/grok_code/tools/tasks.py`) -/

/-- Generic association-list lookup (Python dict `get`). -/
def alGet {β : Type} (m : List (String × β)) (k : String) : Option β :=
  match m.find? (fun p => p.1 == k) with
  | some p => some p.2
  | none => none

/-- Generic association-list update (Python dict `[k] = v`). -/
def alSet {β : Type} (m : List (String × β)) (k : String) (v : β) : List (String × β) :=
  if (m.find? (fun p => p.1 == k)).isSome then
    m.map (fun p => if p.1 == k then (k, v) else p)
  else m ++ [(k, v)]

/-- Generic association-list delete (Python `del m[k]`). -/
def alDel {β : Type} (m : List (String × β)) (k : String) : List (String × β) :=
  m.filter (fun p => p.1 != k)

/-- `TaskStatus` (tasks.py lines 11-15). -/
inductive TaskStatus
  | pending
  | in_progress
  | completed
  | deleted
deriving DecidableEq

/-- `TaskStatus(s)`: `none` models the `ValueError` on an unknown value. -/
def parseTaskStatus (s : String) : Option TaskStatus :=
  if s == "pending" then some .pending
  else if s == "in_progress" then some .in_progress
  else if s == "completed" then some .completed
  else if s == "deleted" then some .deleted
  else none

/-- `TaskItem` (tasks.py lines 18-29); `metadata` restricted to string
values. -/
structure TaskItem where
  id : String
  subject : String
  description : String
  status : TaskStatus
  active_form : String
  owner : String
  blocked_by : List String
  blocks : List String
  metadata : List (String × String)
deriving DecidableEq

/-- The class-level state of `TaskStore` (tasks.py lines 32-36). -/
structure TaskStoreState where
  tasks : List (String × TaskItem)
  counter : Nat
deriving DecidableEq

/-- `TaskStore.create` (tasks.py lines 44-54). -/
def storeCreate (st : TaskStoreState) (subject description active_form : String) :
    TaskStoreState × TaskItem :=
  let counter := st.counter + 1
  let task_id := toString counter
  let task : TaskItem :=
    { id := task_id, subject := subject, description := description,
      status := .pending,
      active_form := if active_form == "" then "Working on: " ++ subject else active_form,
      owner := "", blocked_by := [], blocks := [], metadata := [] }
  ({ tasks := alSet st.tasks task_id task, counter := counter }, task)

/-- The keyword arguments accepted by `TaskStore.update`. -/
structure UpdateArgs where
  status : Option String
  subject : Option String
  description : Option String
  active_form : Option String
  owner : Option String
  add_blocked_by : Option (List String)
  add_blocks : Option (List String)
  metadata : Option (List (String × String))
deriving DecidableEq

/-- An `UpdateArgs` with no field present. -/
def UpdateArgs.none_ : UpdateArgs :=
  ⟨none, none, none, none, none, none, none, none⟩

/-- `TaskStore.update` (tasks.py lines 59-88).  `.error` models the
`ValueError` that `TaskStatus(status)` raises on an unknown status (no
mutation has happened at that point); `.ok (st, none)` is the
task-not-found path. -/
def storeUpdate (st : TaskStoreState) (task_id : String) (kw : UpdateArgs) :
    Except String (TaskStoreState × Option TaskItem) :=
  match alGet st.tasks task_id with
  | none => .ok (st, none)
  | some task =>
    match kw.status with
    | some s =>
      if s == "deleted" then .ok ({ st with tasks := alDel st.tasks task_id }, some task)
      else
        match parseTaskStatus s with
        | none => .error ("ValueError: " ++ s ++ " is not a valid TaskStatus")
        | some ts => .ok (storeApplyRest st task_id { task with status := ts } kw)
    | none => .ok (storeApplyRest st task_id task kw)
where
  /-- The non-status field updates, in source order. -/
  storeApplyRest (st : TaskStoreState) (task_id : String) (task : TaskItem)
      (kw : UpdateArgs) : TaskStoreState × Option TaskItem :=
    let task := match kw.subject with | some v => { task with subject := v } | none => task
    let task := match kw.description with | some v => { task with description := v } | none => task
    let task := match kw.active_form with | some v => { task with active_form := v } | none => task
    let task := match kw.owner with | some v => { task with owner := v } | none => task
    let task := match kw.add_blocked_by with
      | some v => { task with blocked_by := task.blocked_by ++ v } | none => task
    let task := match kw.add_blocks with
      | some v => { task with blocks := task.blocks ++ v } | none => task
    let task := match kw.metadata with
      | some v => { task with metadata := v.foldl (fun m p => alSet m p.1 p.2) task.metadata }
      | none => task
    ({ st with tasks := alSet st.tasks task_id task }, some task)

/-- `TaskStore.list_all` (tasks.py lines 90-91). -/
def storeListAll (st : TaskStoreState) : List TaskItem :=
  (st.tasks.map (fun p => p.2)).filter (fun t => t.status != TaskStatus.deleted)

/-- `TaskStore.clear` (tasks.py lines 93-95). -/
def storeClear (_st : TaskStoreState) : TaskStoreState := ⟨[], 0⟩

/-- One mutating task-store call, for traces. -/
inductive StoreOp
  | create (subject description active_form : String)
  | update (task_id : String) (args : UpdateArgs)
  | clear
deriving DecidableEq

/-- Run a trace of store calls, logging the `TaskItem` returned by each
`create`. -/
def runStore (st : TaskStoreState) : List StoreOp → TaskStoreState × List TaskItem
  | [] => (st, [])
  | .create s d a :: ops =>
    let r := storeCreate st s d a
    let rest := runStore r.1 ops
    (rest.1, r.2 :: rest.2)
  | .update tid args :: ops =>
    let st' := match storeUpdate st tid args with
      | .ok r => r.1
      | .error _ => st
    runStore st' ops
  | .clear :: ops => runStore (storeClear st) ops

/-- Number of `create` calls in a trace. -/
def createCount (ops : List StoreOp) : Nat :=
  ops.countP (fun op => match op with | .create _ _ _ => true | _ => false)

/-! ## Grep (`src/grok_code/tools/glob_grep.py`)

The compiled regex is abstracted as its match predicate `rxMatch`; the walk
order of `search_path.glob` is abstracted as the given file list (path
already relative, content already decoded). -/

/-- `Path.suffix` (CPython: the extension of the final component, empty for
a leading or trailing dot). -/
def pySuffix (p : String) : String :=
  let name := (p.data.reverse.takeWhile (fun c => c != '/')).reverse
  if name.contains '.' then
    let after := name.reverse.takeWhile (fun c => c != '.')
    let i := name.length - 1 - after.length
    if 0 < i && after.length > 0 then ⟨'.' :: after.reverse⟩ else ""
  else ""

/-- The binary-extension blacklist of `GrepTool.execute` (glob_grep.py
line 141). -/
def binaryExtensions : List String :=
  [".png", ".jpg", ".gif", ".pdf", ".zip", ".tar", ".gz", ".exe", ".bin"]

/-- `search_file` (glob_grep.py lines 143-158): one row per matching line,
`<rel>:<lineno>: <line-rstripped>`. -/
def searchFile (rxMatch : String → Bool) (path content : String) : List String :=
  if binaryExtensions.contains (⟨lowerL (pySuffix path).data⟩ : String) then []
  else
    (pyReadlines content.data).enum.filterMap (fun je =>
      if rxMatch ⟨je.2⟩ then
        some (path ++ ":" ++ toString (je.1 + 1) ++ ": " ++ (⟨rstripL je.2⟩ : String))
      else none)

/-- The directory walk of `GrepTool.execute` (glob_grep.py lines 163-170):
extend per file, stop once at least 100 matches are collected. -/
def grepWalk (rxMatch : String → Bool) : List (String × String) → List String → List String
  | [], acc => acc
  | f :: rest, acc =>
    let acc' := acc ++ searchFile rxMatch f.1 f.2
    if acc'.length ≥ 100 then acc' else grepWalk rxMatch rest acc'

/-- The result assembly of `GrepTool.execute` (glob_grep.py lines 172-179)
on a directory tree. -/
def grepOutput (pattern : String) (rxMatch : String → Bool)
    (files : List (String × String)) : String :=
  let results := grepWalk rxMatch files []
  if results.isEmpty then s!"No matches found for pattern: {pattern}"
  else
    let output := String.intercalate "\n" (results.take 100)
    if results.length > 100 then
      output ++ s!"\n\n... (showing first 100 of {results.length} matches)"
    else output

/-! ## Streaming chat client (`src/grok_code/client.py`)

SSE decoding is abstracted to the decoded per-delta events (content strings
and tool-call fragments); `json.loads` of an arguments string and
`html.unescape` of a string are abstracted as the parameters `parseArgs`
and `unesc`.  The retry loop, fragment merging and final tool-call assembly
are translated directly. -/

mutual
/-- A JSON value (`json.loads` result); objects and arrays are inlined
lists to keep recursion structural. -/
inductive JValue
  | str (s : String)
  | num (n : Int)
  | bool (b : Bool)
  | null
  | arr (xs : JArr)
  | obj (xs : JObj)
deriving DecidableEq

inductive JArr
  | nil
  | cons (v : JValue) (tl : JArr)
deriving DecidableEq

inductive JObj
  | nil
  | cons (k : String) (v : JValue) (tl : JObj)
deriving DecidableEq
end

mutual
/-- `_unescape_html_in_dict` (client.py lines 12-20): recursively unescape
every string, keys untouched; `html.unescape` abstracted as `u`. -/
def unescapeJson (u : String → String) : JValue → JValue
  | .str s => .str (u s)
  | .num n => .num n
  | .bool b => .bool b
  | .null => .null
  | .arr xs => .arr (unescapeJArr u xs)
  | .obj xs => .obj (unescapeJObj u xs)

def unescapeJArr (u : String → String) : JArr → JArr
  | .nil => .nil
  | .cons v tl => .cons (unescapeJson u v) (unescapeJArr u tl)

def unescapeJObj (u : String → String) : JObj → JObj
  | .nil => .nil
  | .cons k v tl => .cons k (unescapeJson u v) (unescapeJObj u tl)
end

mutual
/-- The string leaves of a JSON value, in order. -/
def stringLeaves : JValue → List String
  | .str s => [s]
  | .num _ => []
  | .bool _ => []
  | .null => []
  | .arr xs => stringLeavesArr xs
  | .obj xs => stringLeavesObj xs

def stringLeavesArr : JArr → List String
  | .nil => []
  | .cons v tl => stringLeaves v ++ stringLeavesArr tl

def stringLeavesObj : JObj → List String
  | .nil => []
  | .cons _ v tl => stringLeaves v ++ stringLeavesObj tl
end

/-- `ToolCall` (client.py lines 27-33). -/
structure ToolCall where
  id : String
  name : String
  arguments : JValue
deriving DecidableEq

/-- `Message` (client.py lines 45-53), the fields `chat_stream` produces. -/
structure Message where
  role : String
  content : Option String
  tool_calls : Option (List ToolCall)
deriving DecidableEq

/-- One decoded SSE delta of interest: a content fragment or a tool-call
fragment (absent JSON fields modelled as `""`, which the source treats
identically via `get(..., "")` and truthiness). -/
inductive StreamEvent
  | content (s : String)
  | toolCall (index : Nat) (id name args : String)
deriving DecidableEq

/-- The per-index accumulator entry (client.py lines 198-203). -/
structure TCData where
  id : String
  name : String
  args : String
deriving DecidableEq

/-- The latch/append step for one fragment on an existing entry
(client.py lines 204-209). -/
def applyDelta (e : TCData) (id name args : String) : TCData :=
  { id := if id != "" then id else e.id,
    name := if name != "" then name else e.name,
    args := if args != "" then e.args ++ args else e.args }

/-- Merging one event into `(full_content, tool_calls_data)` (client.py
lines 187-209); the map is an insertion-ordered association list keyed by
the fragment `index`. -/
def mergeEvent (acc : String × List (Nat × TCData)) : StreamEvent → String × List (Nat × TCData)
  | .content s => (acc.1 ++ s, acc.2)
  | .toolCall idx id name args =>
    match acc.2.find? (fun p => p.1 == idx) with
    | some _ =>
      (acc.1, acc.2.map (fun p => if p.1 == idx then (idx, applyDelta p.2 id name args) else p))
    | none =>
      (acc.1, acc.2 ++ [(idx, applyDelta ⟨id, "", ""⟩ id name args)])

/-- Accumulate a whole stream of decoded deltas. -/
def mergeEvents (events : List StreamEvent) : String × List (Nat × TCData) :=
  events.foldl mergeEvent ("", [])

/-- The arguments assembly for one accumulated entry (client.py
lines 216-224): empty string → empty map, parse failure → empty map,
otherwise recursive HTML-unescape of the parse result. -/
def buildArgs (parseArgs : String → Option JValue) (u : String → String) (args : String) : JValue :=
  if args == "" then .obj .nil
  else
    match parseArgs args with
    | some v => unescapeJson u v
    | none => .obj .nil

/-- Lookup in the per-index accumulator map. -/
def tcLookup (m : List (Nat × TCData)) (k : Nat) : Option TCData :=
  match m.find? (fun p => p.1 == k) with
  | some p => some p.2
  | none => none

/-- The final tool-call assembly (client.py lines 211-227): entries in
ascending index order. -/
def buildToolCalls (parseArgs : String → Option JValue) (u : String → String)
    (data : List (Nat × TCData)) : List ToolCall :=
  ((data.map (fun p => p.1)).foldr insertSorted []).filterMap (fun idx =>
    match tcLookup data idx with
    | some e => some ⟨e.id, e.name, buildArgs parseArgs u e.args⟩
    | none => none)

/-- The `Message` built from a finished stream (client.py lines 211-233). -/
def buildMessage (parseArgs : String → Option JValue) (u : String → String)
    (events : List StreamEvent) : Message :=
  let acc := mergeEvents events
  { role := "assistant",
    content := if acc.1 != "" then some acc.1 else none,
    tool_calls :=
      if acc.2.isEmpty then none
      else some (buildToolCalls parseArgs u acc.2) }

/-- What one connection attempt of `chat_stream` yields: a complete stream,
or a connection-level error (`httpx.RemoteProtocolError`/`ReadError`/
`ConnectError`) after the given events were already decoded. -/
inductive AttemptResult
  | success (events : List StreamEvent)
  | connError (events : List StreamEvent) (errMsg : String)
deriving DecidableEq

/-- The events an attempt decoded before finishing or dying. -/
def AttemptResult.events : AttemptResult → List StreamEvent
  | .success evs => evs
  | .connError evs _ => evs

/-- Is the attempt a connection error? -/
def AttemptResult.isConnError : AttemptResult → Bool
  | .success _ => false
  | .connError _ _ => true

/-- The retry loop of `chat_stream` (client.py lines 162-252), from attempt
number `a` with `remaining = max_retries - a` retries left: accumulators
are re-initialised on every attempt; a failed attempt with retries left
sleeps `1.0 * (attempt + 1)` seconds (logged) and retries; at the cap
(`remaining = 0`, so `a = max_retries`) it returns the partial content of
this last attempt with the truncation suffix when non-empty and raises
otherwise. -/
def chatStreamGo (parseArgs : String → Option JValue) (u : String → String)
    (attempts : Nat → AttemptResult) :
    (remaining a : Nat) → (sleeps : List Nat) → Except String Message × List Nat
  | remaining, a, sleeps =>
    match attempts a with
    | .success evs => (.ok (buildMessage parseArgs u evs), sleeps.reverse)
    | .connError evs e =>
      match remaining with
      | r + 1 => chatStreamGo parseArgs u attempts r (a + 1) ((a + 1) :: sleeps)
      | 0 =>
        let fullContent := (mergeEvents evs).1
        if fullContent != "" then
          (.ok { role := "assistant",
                 content := some (fullContent ++ "\n\n[Response interrupted - connection error]"),
                 tool_calls := none },
           sleeps.reverse)
        else
          (.error s!"API connection failed after {a + 1} attempts: {e}", sleeps.reverse)

/-- `chat_stream` with the transport abstracted as the attempt oracle;
also returns the log of backoff sleeps (in seconds). -/
def chatStream (parseArgs : String → Option JValue) (u : String → String)
    (maxRetries : Nat) (attempts : Nat → AttemptResult) : Except String Message × List Nat :=
  chatStreamGo parseArgs u attempts maxRetries 0 []

/-- The error text an attempt carries (empty for a successful one). -/
def AttemptResult.errMsg : AttemptResult → String
  | .success _ => ""
  | .connError _ e => e

/-- The tool-call fragments a stream carries for one index, in order
(specification side, for stating the merge law). -/
def fragsOf (idx : Nat) (events : List StreamEvent) : List (String × String × String) :=
  events.filterMap (fun e =>
    match e with
    | .toolCall i id name args => if i == idx then some (id, name, args) else none
    | _ => none)

/-- The last non-empty string in a list, `""` when there is none
(specification side: the net effect of repeated overwrite-if-non-empty). -/
def lastNonEmpty (l : List String) : String :=
  l.foldl (fun acc s => if s != "" then s else acc) ""

/-- Concatenation of a list of strings in order (specification side). -/
def joinFrags (l : List String) : String :=
  l.foldl (fun acc s => acc ++ s) ""

/-- Folding a run of fragments into an optional accumulator entry exactly as
the merge loop does: the first fragment creates the entry, later ones latch
into it. -/
def applyFrags : Option TCData → List (String × String × String) → Option TCData
  | acc, [] => acc
  | acc, f :: fs =>
    match acc with
    | some e => applyFrags (some (applyDelta e f.1 f.2.1 f.2.2)) fs
    | none => applyFrags (some (applyDelta ⟨f.1, "", ""⟩ f.1 f.2.1 f.2.2)) fs

/-! ## Agent dispatch (`src/grok_code/agents/`) -/

/-- `AgentType` (base.py lines 56-62). -/
inductive AgentType
  | explore
  | plan
  | general
  | bash
deriving DecidableEq

/-- `AgentType(value)` with the `except ValueError` fallback of
`create_agent` (runner.py lines 63-68): unknown names default to explore. -/
def parseAgentType (s : String) : AgentType :=
  if s == "explore" then .explore
  else if s == "plan" then .plan
  else if s == "general" then .general
  else if s == "bash" then .bash
  else .explore

/-- A plugin agent definition (`plugins/loader.py` `Agent`), the fields the
runtime consumes. -/
structure PluginAgentDef where
  name : String
  description : String
  tools : List String
  prompt : String
deriving DecidableEq

/-- Which agent class `AgentRunner.create_agent` instantiates. -/
inductive CreatedAgent
  | exploreAgent
  | planAgent
  | pluginAgent (d : PluginAgentDef)
deriving DecidableEq

/-- `AgentRunner.create_agent` (runner.py lines 52-76) on a string agent
type, with the plugin registry abstracted as `pluginLookup`: plugin name
first; then the built-in dispatch, whose final branch returns an
`ExploreAgent` ("Default to explore for general purpose"). -/
def createAgent (pluginLookup : String → Option PluginAgentDef) (agent_type : String) :
    CreatedAgent :=
  match pluginLookup agent_type with
  | some d => .pluginAgent d
  | none =>
    let t := parseAgentType agent_type
    if t == .explore then .exploreAgent
    else if t == .plan then .planAgent
    else .exploreAgent

/-- The observable run-loop parameters of an agent class: allow-list (empty
means unrestricted), turn cap, and the finish hooks (modification tracking,
completion gate on `task_update status=completed`, syntax validation). -/
structure AgentProfile where
  allowed_tools : List String
  max_turns : Nat
  tracksModifications : Bool
  completionGate : Bool
  syntaxValidation : Bool
deriving DecidableEq

/-- `ExploreAgent` (explore.py lines 30-31 and 59; its loop has no
modification tracking, no completion gate and no syntax validation). -/
def exploreProfile : AgentProfile :=
  { allowed_tools := ["read_file", "glob", "grep"], max_turns := 10,
    tracksModifications := false, completionGate := false, syntaxValidation := false }

/-- `PlanAgent` (plan.py lines 35-36 and 117; no finish hooks). -/
def planProfile : AgentProfile :=
  { allowed_tools := ["read_file", "glob", "grep", "write_file"], max_turns := 15,
    tracksModifications := false, completionGate := false, syntaxValidation := false }

/-- `GeneralAgent` (general.py lines 36-38, 78 and 101-158): unrestricted
tools, 30 turns, all finish hooks. -/
def generalAgentProfile : AgentProfile :=
  { allowed_tools := [], max_turns := 30,
    tracksModifications := true, completionGate := true, syntaxValidation := true }

/-- `PluginAgent` (plugin_agent.py lines 132-133, 191 and 231-292). -/
def pluginProfile (d : PluginAgentDef) : AgentProfile :=
  { allowed_tools := d.tools, max_turns := 50,
    tracksModifications := true, completionGate := true, syntaxValidation := true }

/-- The profile of the class `create_agent` instantiated. -/
def profileOf : CreatedAgent → AgentProfile
  | .exploreAgent => exploreProfile
  | .planAgent => planProfile
  | .pluginAgent d => pluginProfile d

/-! ## The sub-agent tool-call loop body (general.py lines 115-169,
plugin_agent.py lines 223-279 — the two fragments are identical in the
modelled region)

The registry is abstracted as `exec` (tool name and arguments to
observation string) and `validate_modified_files` as `validate`. -/

/-- Python `args.get(k)`. -/
def argsGet? (args : Args) (k : String) : Option String :=
  match args.find? (fun p => p.1 == k) with
  | some p => some p.2
  | none => none

/-- A tool call as seen by the agent loop. -/
structure LoopToolCall where
  id : String
  name : String
  args : Args

/-- One iteration of the per-tool-call loop body: modification tracking
(before anything runs), then the completion-gate interception of
`task_update status=completed`, then `registry.execute`.  Returns the new
modification set, whether the registry actually executed the call, and the
observation string appended. -/
def processToolCall (validate : List String → Bool × List String)
    (exec : String → Args → String) (files : List String) (tc : LoopToolCall) :
    List String × Bool × String :=
  let files :=
    if tc.name == "edit_file" || tc.name == "write_file" then
      let fp := argsGetD tc.args "file_path"
      if fp != "" then files.insert fp else files
    else files
  if tc.name == "task_update" && (argsGet? tc.args "status" == some "completed") then
    if files.isEmpty then
      (files, false,
       "Error: Cannot mark task complete - no files have been modified. Use Edit or Write tools to make changes first.")
    else
      let v := validate files
      if !v.1 then
        (files, false,
         "Error: Cannot mark task complete - files have syntax errors that must be fixed first:\n\n" ++
           String.intercalate "\n\n" v.2 ++ "\n\nFix the errors and try again.")
      else (files, true, exec tc.name tc.args)
  else (files, true, exec tc.name tc.args)

/-- The loop over one assistant message's tool calls, logging
`(executed, observation)` per call. -/
def processToolCalls (validate : List String → Bool × List String)
    (exec : String → Args → String) :
    List String → List LoopToolCall → List String × List (Bool × String)
  | files, [] => (files, [])
  | files, tc :: rest =>
    let r := processToolCall validate exec files tc
    let rr := processToolCalls validate exec r.1 rest
    (rr.1, (r.2.1, r.2.2) :: rr.2)

/-! ## General lemmas -/

theorem isPrefixL_append_of (p : List Char) :
    ∀ a b : List Char, isPrefixL p a = true → isPrefixL p (a ++ b) = true := by
  induction p with
  | nil => intro a b _; rfl
  | cons c cs ih =>
    intro a b h
    cases a with
    | nil => simp [isPrefixL] at h
    | cons d as =>
      simp only [isPrefixL, Bool.and_eq_true] at h
      simp only [List.cons_append, isPrefixL, Bool.and_eq_true]
      exact ⟨h.1, ih as b h.2⟩

theorem startsWithError_append (head t : String) (h : startsWithError head = true) :
    startsWithError (head ++ t) = true := by
  simp only [startsWithError, String.data_append] at *
  exact isPrefixL_append_of _ _ _ h

/-! ## Claim theorems -/

/-- C1: the spec says spawning a sub-agent with agent_type `general` yields
an agent with an empty allow-list (all tools), a turn cap of 30 and fully
active finish hooks.  `AgentRunner.create_agent` has no branch for
`AgentType.GENERAL`: its final `else` returns an `ExploreAgent`, whose loop
allows only `read_file`/`glob`/`grep`, caps at 10 turns and runs no finish
hooks — while the never-instantiated `GeneralAgent` class carries exactly
the profile the spec describes. -/
theorem create_agent_general_returns_explore :
    createAgent (fun _ => none) "general" = CreatedAgent.exploreAgent ∧
    profileOf (createAgent (fun _ => none) "general") =
      { allowed_tools := ["read_file", "glob", "grep"], max_turns := 10,
        tracksModifications := false, completionGate := false, syntaxValidation := false } ∧
    generalAgentProfile =
      { allowed_tools := [], max_turns := 30,
        tracksModifications := true, completionGate := true, syntaxValidation := true } ∧
    profileOf (createAgent (fun _ => none) "general") ≠ generalAgentProfile := by
  refine ⟨rfl, rfl, rfl, ?_⟩
  decide

/-- C2: in auto mode, `rm -rf /` is refused outright by the bash tool's
built-in refuser (no process is spawned), while `rm -rf ~/Downloads` passes
the built-in refuser but the Permission Gate classifies it as needing
approval with reason `Recursive delete in root or home directory`; the
command is not executed until its key (`rm`) is approved. -/
theorem bash_auto_mode_dangerous_commands :
    bashGate ⟨.auto, [], []⟩ "rm -rf /" =
      .refused "Error: Refusing to execute potentially dangerous command" ∧
    bashBuiltinRefuses "rm -rf ~/Downloads" = false ∧
    checkPermission ⟨.auto, [], []⟩ "bash" [("command", "rm -rf ~/Downloads")] =
      (false, some "Recursive delete in root or home directory", "rm") ∧
    strContains "Recursive delete in root or home directory" "root or home directory" = true ∧
    (∃ m, bashGate ⟨.auto, [], []⟩ "rm -rf ~/Downloads" = .needsPermission m ∧
      strContains m "root or home directory" = true) ∧
    bashGate (PermState.approveKey ⟨.auto, [], []⟩ "bash" "rm" false) "rm -rf ~/Downloads" =
      .executed := by
  refine ⟨by decide, by decide, by decide, by decide,
    ⟨"⚠️  Permission required:\nRecursive delete in root or home directory\n\nUse approve_operation tool to approve, or modify the command.",
      by decide, by decide⟩, by decide⟩

/-- C6: a bash command or write/edit path matching the dangerous classifier
makes `check_permission` return `allowed = False` with the matching reason
in every mode unless its approval key was approved (in which case it is
allowed); and in auto mode every non-dangerous call is allowed. -/
theorem check_permission_dangerous_always_gated (st : PermState) (tool : String) (args : Args) :
    (∀ reason, dangerReasonOf tool args = some reason →
      isApproved st tool (getApprovalKey tool args) = false →
      checkPermission st tool args = (false, some reason, getApprovalKey tool args)) ∧
    (∀ reason, dangerReasonOf tool args = some reason →
      isApproved st tool (getApprovalKey tool args) = true →
      checkPermission st tool args = (true, none, getApprovalKey tool args)) ∧
    (st.mode = .auto → dangerReasonOf tool args = none →
      checkPermission st tool args = (true, none, getApprovalKey tool args)) := by
  refine ⟨?_, ?_, ?_⟩
  · intro reason hd ha
    simp [checkPermission, hd, ha]
  · intro reason hd ha
    simp [checkPermission, hd, ha]
  · intro hm hd
    simp [checkPermission, hd, hm]

/-- Witness for C6: a dangerous bash command in manual mode with no
approvals. -/
theorem check_permission_dangerous_always_gated_witness :
    checkPermission ⟨.manual, [], []⟩ "bash" [("command", "sudo rm x")] =
      (false, some "Sudo remove command", "sudo") :=
  (check_permission_dangerous_always_gated ⟨.manual, [], []⟩ "bash"
    [("command", "sudo rm x")]).1 "Sudo remove command" (by decide) (by decide)

theorem find?_map_setter (t : List (String × String)) (k v : String)
    (h : (t.find? (fun p => p.1 == k)).isSome = true) :
    (t.map (fun p => if p.1 == k then (k, v) else p)).find? (fun p => p.1 == k) =
      some (k, v) := by
  induction t with
  | nil => simp [List.find?] at h
  | cons p t ih =>
    cases hb : (p.1 == k) with
    | true =>
      have hp : p.1 = k := by simpa using hb
      simp [List.find?_cons, hp]
    | false =>
      simp only [List.find?_cons, hb] at h
      simp only [List.map_cons, hb, Bool.false_eq_true, if_false]
      simp only [List.find?_cons, hb]
      exact ih h

theorem find?_append_new (t : List (String × String)) (k v : String)
    (h : t.find? (fun p => p.1 == k) = none) :
    (t ++ [(k, v)]).find? (fun p => p.1 == k) = some (k, v) := by
  induction t with
  | nil => simp
  | cons p t ih =>
    cases hb : (p.1 == k) with
    | true =>
      simp only [List.find?_cons, hb] at h
      exact absurd h (by simp)
    | false =>
      simp only [List.find?_cons, hb] at h
      simp only [List.cons_append, List.find?_cons, hb]
      exact ih h

theorem find?_fsSet (m : List (String × String)) (k v : String) :
    (fsSet m k v).find? (fun p => p.1 == k) = some (k, v) := by
  unfold fsSet
  cases h : (m.find? (fun p => p.1 == k)).isSome with
  | true => simp only [h, if_true]; exact find?_map_setter m k v h
  | false =>
    simp only [h, Bool.false_eq_true, if_false]
    exact find?_append_new m k v (by
      cases hf : m.find? (fun p => p.1 == k) with
      | none => rfl
      | some q => rw [hf] at h; simp at h)

theorem fsGet_fsSet (m : List (String × String)) (k v : String) :
    fsGet (fsSet m k v) k = some v := by
  simp [fsGet, find?_fsSet]

theorem contains_unmarkFileRead (resolveOf : String → String) (pabs : String)
    (rf : List String) :
    (unmarkFileRead resolveOf pabs rf).contains (resolveOf pabs) = false := by
  simp [unmarkFileRead, List.contains_eq_any_beq]

/-- C3: write_file on an existing path that is not in the ReadSet returns an
`Error:` string and leaves the whole state unchanged, and edit_file on such
a path changes nothing either; write_file on a path in the ReadSet stores
the content, drops the path from the ReadSet and reports
`Successfully wrote N bytes to <path>`. -/
theorem write_edit_require_read_first (absOf resolveOf : String → String) (p c : String) :
    (∀ st : FsState,
      (fsGet st.files (resolveOf (absOf p))).isSome = true →
      hasFileBeenRead resolveOf (absOf p) st.readFiles = false →
      startsWithError (writeFile absOf resolveOf st p c).2 = true ∧
      (writeFile absOf resolveOf st p c).1 = st ∧
      (∀ old new ra, (editFile absOf resolveOf st p old new ra).1 = st)) ∧
    (∀ st : FsState,
      hasFileBeenRead resolveOf (absOf p) st.readFiles = true →
      fsGet (writeFile absOf resolveOf st p c).1.files (resolveOf (absOf p)) = some c ∧
      (writeFile absOf resolveOf st p c).1.readFiles.contains (resolveOf (absOf p)) = false ∧
      (writeFile absOf resolveOf st p c).2 =
        "Successfully wrote " ++ toString c.length ++ " bytes to " ++ absOf p) := by
  constructor
  · intro st hex hnr
    refine ⟨?_, ?_, ?_⟩
    · simp only [writeFile, hex, hnr, Bool.not_false, Bool.and_self, if_true]
      rw [String.append_assoc]
      exact startsWithError_append _ _ (by decide)
    · simp [writeFile, hex, hnr]
    · intro old new ra
      obtain ⟨content, hc⟩ := Option.isSome_iff_exists.mp hex
      simp [editFile, hc, hnr]
  · intro st hr
    have hcond : ((fsGet st.files (resolveOf (absOf p))).isSome &&
        !(hasFileBeenRead resolveOf (absOf p) st.readFiles)) = false := by
      simp [hr]
    refine ⟨?_, ?_, ?_⟩
    · simp only [writeFile, hcond, Bool.false_eq_true, if_false]
      exact fsGet_fsSet _ _ _
    · simp only [writeFile, hcond, Bool.false_eq_true, if_false]
      exact contains_unmarkFileRead _ _ _
    · simp only [writeFile, hcond, Bool.false_eq_true, if_false]
      simp [toString]

/-- Witness for C3: concrete run on a one-file workspace. -/
theorem write_edit_require_read_first_witness :
    startsWithError (writeFile id id ⟨[("/tmp/x", "hi")], []⟩ "/tmp/x" "bye").2 = true ∧
    (writeFile id id ⟨[("/tmp/x", "hi")], []⟩ "/tmp/x" "bye").1 = ⟨[("/tmp/x", "hi")], []⟩ ∧
    fsGet (writeFile id id ⟨[("/tmp/x", "hi")], ["/tmp/x"]⟩ "/tmp/x" "bye").1.files "/tmp/x" =
      some "bye" := by
  refine ⟨((write_edit_require_read_first id id "/tmp/x" "bye").1 _ (by decide) (by decide)).1,
    ((write_edit_require_read_first id id "/tmp/x" "bye").1 _ (by decide) (by decide)).2.1,
    ((write_edit_require_read_first id id "/tmp/x" "bye").2 _ (by decide)).1⟩

/-- C10: in the GeneralAgent and PluginAgent loops, every `edit_file` or
`write_file` tool call with a non-empty `file_path` is added to the
per-agent modification set before the registry executes it and regardless
of the observation the registry returns (`exec` is arbitrary here, so it
covers `Error:` results); consequently a following
`task_update status=completed` passes the non-empty-modification gate and
is executed once syntax validation passes, even though the modification
attempt may have failed. -/
theorem modification_tracking_precedes_execution
    (validate : List String → Bool × List String) (exec : String → Args → String)
    (files : List String) (tc : LoopToolCall) :
    ((tc.name = "edit_file" ∨ tc.name = "write_file") →
      argsGetD tc.args "file_path" ≠ "" →
      argsGetD tc.args "file_path" ∈ (processToolCall validate exec files tc).1) ∧
    (∀ p : String, p ≠ "" → (validate [p]).1 = true →
      (processToolCalls validate exec []
          [⟨"1", "edit_file", [("file_path", p)]⟩,
           ⟨"2", "task_update", [("status", "completed")]⟩]).1 = [p] ∧
      ((processToolCalls validate exec []
          [⟨"1", "edit_file", [("file_path", p)]⟩,
           ⟨"2", "task_update", [("status", "completed")]⟩]).2.map Prod.fst) =
        [true, true]) := by
  constructor
  · intro hname hfp
    have hfpb : (argsGetD tc.args "file_path" != "") = true := by
      simpa using hfp
    have hnb : (tc.name == "edit_file" || tc.name == "write_file") = true := by
      rcases hname with h | h <;> simp [h]
    unfold processToolCall
    rw [hnb]
    simp only [if_true, hfpb]
    have hmem : argsGetD tc.args "file_path" ∈ files.insert (argsGetD tc.args "file_path") :=
      List.mem_insert_self _ _
    split <;> [skip; exact hmem]
    split <;> [exact hmem; skip]
    split <;> exact hmem
  · intro p hp hv
    have hpb : (p != "") = true := by simpa using hp
    have hins : List.insert p ([] : List String) = [p] := by simp [List.insert]
    have hv' : (validate [p]).1 = true := hv
    simp [processToolCalls, processToolCall, argsGetD, argsGet?, hpb, hins, hv']

/-- Witness for C10: a failed edit (the registry reports an `Error:`
string) still records the path and lets `task_update status=completed`
through. -/
theorem modification_tracking_precedes_execution_witness :
    "/tmp/a.py" ∈ (processToolCall (fun _ => (true, [])) (fun _ _ => "Error: boom") []
      ⟨"1", "edit_file", [("file_path", "/tmp/a.py")]⟩).1 ∧
    ((processToolCalls (fun _ => (true, [])) (fun _ _ => "Error: boom") []
        [⟨"1", "edit_file", [("file_path", "/tmp/a.py")]⟩,
         ⟨"2", "task_update", [("status", "completed")]⟩]).2.map Prod.fst) = [true, true] := by
  refine ⟨(modification_tracking_precedes_execution (fun _ => (true, []))
      (fun _ _ => "Error: boom") [] ⟨"1", "edit_file", [("file_path", "/tmp/a.py")]⟩).1
      (Or.inl rfl) (by decide),
    ((modification_tracking_precedes_execution (fun _ => (true, []))
      (fun _ _ => "Error: boom") [] ⟨"1", "edit_file", [("file_path", "/tmp/a.py")]⟩).2
      "/tmp/a.py" (by decide) (by decide)).2⟩

set_option maxRecDepth 4000 in
/-- C9 counterexample: a tree with 101 matching lines split 100 + 1 across
two files.  The walk collects exactly 100 rows from the first file, stops
(the second file is never searched), and the output is 100 rows with NO
truncation notice — the claim promises a truncation notice for every tree
with 101 matching lines. -/
theorem grep_101_matches_no_notice :
    ((pyReadlines (String.mk (List.flatten (List.replicate 100 ['x', '\n']))).data).length +
        (pyReadlines ("x\n" : String).data).length = 101) ∧
    (grepWalk (fun _ => true)
        [("a.txt", String.mk (List.flatten (List.replicate 100 ['x', '\n']))), ("b.txt", "x\n")]
        []).length = 100 ∧
    strContains
      (grepOutput "x" (fun _ => true)
        [("a.txt", String.mk (List.flatten (List.replicate 100 ['x', '\n']))), ("b.txt", "x\n")])
      "showing first" = false := by
  refine ⟨by decide, by decide, by decide⟩

/-- C9 amended: the walk stops at the first file that brings the collected
match count to 100 or more (later files are never searched, whatever they
are), and the truncation notice appears only when the collected count
exceeds 100 — e.g. a first file with 101 matching lines yields exactly 100
rows plus the `showing first 100 of 101 matches` notice. -/
theorem grep_cap_and_notice (pattern : String) (rx : String → Bool) :
    (∀ f : String × String, ∀ rest rest' : List (String × String),
      100 ≤ (searchFile rx f.1 f.2).length →
      grepWalk rx (f :: rest) [] = grepWalk rx (f :: rest') []) ∧
    (∀ f : String × String, ∀ rest : List (String × String),
      (searchFile rx f.1 f.2).length = 101 →
      grepOutput pattern rx (f :: rest) =
        String.intercalate "\n" ((searchFile rx f.1 f.2).take 100) ++
          "\n\n... (showing first 100 of 101 matches)") := by
  constructor
  · intro f rest rest' h
    unfold grepWalk
    rw [List.nil_append, if_pos (by simpa using h), if_pos (by simpa using h)]
  · intro f rest h
    have hwalk : grepWalk rx (f :: rest) [] = searchFile rx f.1 f.2 := by
      unfold grepWalk
      simp [h]
    have hne : (searchFile rx f.1 f.2).isEmpty = false := by
      cases hsf : searchFile rx f.1 f.2 with
      | nil => rw [hsf] at h; simp at h
      | cons a l => simp
    unfold grepOutput
    rw [hwalk]
    simp only [hne, Bool.false_eq_true, if_false, h]
    norm_num
    congr 1

set_option maxRecDepth 4000 in
/-- Witness for C9's amended statement: one file holding 101 matching
lines. -/
theorem grep_cap_and_notice_witness :
    grepOutput "x" (fun _ => true)
        [("a.txt", String.mk (List.flatten (List.replicate 101 ['x', '\n'])))] =
      String.intercalate "\n"
          ((searchFile (fun _ => true) "a.txt"
            (String.mk (List.flatten (List.replicate 101 ['x', '\n'])))).take 100) ++
        "\n\n... (showing first 100 of 101 matches)" :=
  (grep_cap_and_notice "x" (fun _ => true)).2
    ("a.txt", String.mk (List.flatten (List.replicate 101 ['x', '\n']))) [] (by decide)

theorem storeUpdate_counter (st : TaskStoreState) (tid : String) (kw : UpdateArgs) :
    (match storeUpdate st tid kw with
      | .ok r => r.1
      | .error _ => st).counter = st.counter := by
  unfold storeUpdate
  cases alGet st.tasks tid with
  | none => rfl
  | some task =>
    cases kw.status with
    | none => rfl
    | some s =>
      by_cases hd : s = "deleted"
      · simp [hd]
      · have hdb : (s == "deleted") = false := by simp [hd]
        simp only [hdb, Bool.false_eq_true, if_false]
        cases parseTaskStatus s <;> rfl

/-- C8 counterexample: after `clear` the id counter rolls back, so a later
`create` hands out the already-used id `1` for a different task (subject
`b` instead of `a`). -/
theorem task_id_reused_after_clear :
    ((runStore ⟨[], 0⟩ [.create "a" "d" "", .clear, .create "b" "d2" ""]).2.map
        (fun t => t.id)) = ["1", "1"] ∧
    ((runStore ⟨[], 0⟩ [.create "a" "d" "", .clear, .create "b" "d2" ""]).2.map
        (fun t => t.subject)) = ["a", "b"] := by
  refine ⟨by decide, by decide⟩

/-- C8 amended: across any sequence of store operations that does not
contain the `clear` reset hook, the ids handed out by `create` are exactly
the consecutive counters `counter+1, counter+2, ...` rendered as strings —
positive, strictly increasing, and never reused; `clear` rolls the counter
back to 0 and ids repeat afterwards (see the counterexample). -/
theorem task_ids_fresh_without_clear (st : TaskStoreState) (ops : List StoreOp)
    (h : StoreOp.clear ∉ ops) :
    ((runStore st ops).2.map (fun t => t.id)) =
      (List.range' (st.counter + 1) (createCount ops) 1).map toString ∧
    (runStore st ops).1.counter = st.counter + createCount ops := by
  induction ops generalizing st with
  | nil => simp [runStore, createCount]
  | cons op ops ih =>
    have hop : op ≠ StoreOp.clear := fun he => h (he ▸ List.mem_cons_self op ops)
    have hops : StoreOp.clear ∉ ops := fun hm => h (List.mem_cons_of_mem op hm)
    cases op with
    | create s d a =>
      have ihr := ih ((storeCreate st s d a).1) hops
      have hcnt : (storeCreate st s d a).1.counter = st.counter + 1 := rfl
      have hid : (storeCreate st s d a).2.id = toString (st.counter + 1) := rfl
      have hcc : createCount (.create s d a :: ops) = createCount ops + 1 := by
        simp [createCount, List.countP_cons]
      rw [hcnt] at ihr
      constructor
      · show (storeCreate st s d a).2.id ::
          ((runStore (storeCreate st s d a).1 ops).2.map (fun t => t.id)) = _
        rw [hid, ihr.1, hcc, List.range'_succ]
        simp
      · show (runStore (storeCreate st s d a).1 ops).1.counter = _
        rw [ihr.2, hcc]
        omega
    | update tid args =>
      have hcc : createCount (.update tid args :: ops) = createCount ops := by
        simp [createCount, List.countP_cons]
      have hst' := storeUpdate_counter st tid args
      have ihr := ih (match storeUpdate st tid args with
        | .ok r => r.1
        | .error _ => st) hops
      rw [hst'] at ihr
      exact ⟨by rw [show (runStore st (.update tid args :: ops)).2 =
          (runStore (match storeUpdate st tid args with
            | .ok r => r.1 | .error _ => st) ops).2 from rfl, ihr.1, hcc],
        by rw [show (runStore st (.update tid args :: ops)).1 =
          (runStore (match storeUpdate st tid args with
            | .ok r => r.1 | .error _ => st) ops).1 from rfl, ihr.2, hcc]⟩
    | clear => exact absurd rfl hop

/-- Witness for C8's amended statement: two creates around an update with a
delete. -/
theorem task_ids_fresh_without_clear_witness :
    ((runStore ⟨[], 0⟩ [.create "a" "d" "", .update "1" ⟨some "deleted", none, none,
        none, none, none, none, none⟩, .create "b" "e" ""]).2.map (fun t => t.id)) =
      ["1", "2"] := by
  have := (task_ids_fresh_without_clear ⟨[], 0⟩
    [.create "a" "d" "", .update "1" ⟨some "deleted", none, none, none, none, none,
      none, none⟩, .create "b" "e" ""] (by decide)).1
  rw [this]
  decide

theorem runOp_readFiles (absOf resolveOf : String → String) (st : FsState) (op : FileOp) :
    (runOp absOf resolveOf st op).1.readFiles =
      if opSucceeds absOf resolveOf st op then
        (if op.isRead then markFileRead resolveOf (absOf op.path) st.readFiles
         else unmarkFileRead resolveOf (absOf op.path) st.readFiles)
      else st.readFiles := by
  cases op with
  | read p o l =>
    cases h : fsGet st.files (resolveOf (absOf p)) with
    | none => simp [runOp, readFile, opSucceeds, FileOp.isRead, FileOp.path, h]
    | some content =>
      simp only [runOp, readFile, opSucceeds, FileOp.isRead, FileOp.path, h,
        Option.isSome_some, if_true]
      split <;> rfl
  | write p c =>
    by_cases hguard : ((fsGet st.files (resolveOf (absOf p))).isSome &&
        !(hasFileBeenRead resolveOf (absOf p) st.readFiles)) = true
    · simp [runOp, writeFile, opSucceeds, FileOp.isRead, FileOp.path, hguard]
    · have hg : ((fsGet st.files (resolveOf (absOf p))).isSome &&
          !(hasFileBeenRead resolveOf (absOf p) st.readFiles)) = false := by
        simpa using hguard
      simp [runOp, writeFile, opSucceeds, FileOp.isRead, FileOp.path, hg]
  | edit p old new ra =>
    cases h : fsGet st.files (resolveOf (absOf p)) with
    | none => simp [runOp, editFile, opSucceeds, FileOp.isRead, FileOp.path, h]
    | some content =>
      by_cases hr : hasFileBeenRead resolveOf (absOf p) st.readFiles = true
      · by_cases hc : strContains content old = true
        · by_cases hcnt : (decide (countL content.data old.data > 1) && !ra) = true
          · have hcnt' : (countL content.data old.data > 1 && !ra) = true := by
              simpa using hcnt
            simp [runOp, editFile, opSucceeds, FileOp.isRead, FileOp.path, h, hr, hc, hcnt, hcnt']
          · have hcnt' : (countL content.data old.data > 1 && !ra) = false := by
              simpa using hcnt
            simp [runOp, editFile, opSucceeds, FileOp.isRead, FileOp.path, h, hr, hc, hcnt, hcnt']
        · have hc' : strContains content old = false := by simpa using hc
          simp [runOp, editFile, opSucceeds, FileOp.isRead, FileOp.path, h, hr, hc']
      · have hr' : hasFileBeenRead resolveOf (absOf p) st.readFiles = false := by
          simpa using hr
        simp [runOp, editFile, opSucceeds, FileOp.isRead, FileOp.path, h, hr']

theorem readSet_iff_lastReadTouch (absOf resolveOf : String → String) (ops : List FileOp) :
    ∀ (st : FsState) (rp : String),
      (rp ∈ (runOps absOf resolveOf st ops).readFiles ↔
        (match lastReadTouch rp (touchLog absOf resolveOf st ops) with
         | some b => b = true
         | none => rp ∈ st.readFiles)) := by
  induction ops with
  | nil => intro st rp; simp [runOps, touchLog, lastReadTouch]
  | cons op ops ih =>
    intro st rp
    rw [show runOps absOf resolveOf st (op :: ops) =
      runOps absOf resolveOf (runOp absOf resolveOf st op).1 ops from rfl]
    rw [show touchLog absOf resolveOf st (op :: ops) =
      (resolveOf (absOf op.path), op.isRead, opSucceeds absOf resolveOf st op) ::
        touchLog absOf resolveOf (runOp absOf resolveOf st op).1 ops from rfl]
    rw [ih _ rp]
    cases hlast : lastReadTouch rp
        (touchLog absOf resolveOf (runOp absOf resolveOf st op).1 ops) with
    | some b => simp [lastReadTouch, hlast]
    | none =>
      simp only [lastReadTouch, hlast]
      rw [runOp_readFiles]
      by_cases hsucc : opSucceeds absOf resolveOf st op = true
      · by_cases hkey : resolveOf (absOf op.path) = rp
        · cases hr : op.isRead with
          | true =>
            simp [hsucc, hkey, hr, markFileRead, List.mem_insert_iff]
          | false =>
            simp [hsucc, hkey, hr, unmarkFileRead, List.mem_filter]
        · have hkb : (resolveOf (absOf op.path) == rp) = false := by simp [hkey]
          cases hr : op.isRead with
          | true =>
            simp [hsucc, hkb, hr, markFileRead, List.mem_insert_iff]
            intro he
            exact absurd he.symm hkey
          | false =>
            simp [hsucc, hkb, hr, unmarkFileRead, List.mem_filter]
            intro hm he
            exact hkey he.symm
      · have hsb : opSucceeds absOf resolveOf st op = false := by simpa using hsucc
        simp [hsb]

/-- C7: starting from an empty ReadSet, a resolved path is in the ReadSet
exactly when the last successful file-tool call touching it was a read
(reads insert on success, writes/edits remove on success, failed calls
leave the set unchanged — see `runOp_readFiles`). -/
theorem readSet_contains_iff_last_read (absOf resolveOf : String → String)
    (files0 : List (String × String)) (ops : List FileOp) (rp : String) :
    (rp ∈ (runOps absOf resolveOf ⟨files0, []⟩ ops).readFiles ↔
      lastReadTouch rp (touchLog absOf resolveOf ⟨files0, []⟩ ops) = some true) ∧
    (∀ st : FsState, ∀ op : FileOp,
      (runOp absOf resolveOf st op).1.readFiles =
        if opSucceeds absOf resolveOf st op then
          (if op.isRead then markFileRead resolveOf (absOf op.path) st.readFiles
           else unmarkFileRead resolveOf (absOf op.path) st.readFiles)
        else st.readFiles) := by
  constructor
  · rw [readSet_iff_lastReadTouch]
    cases hlast : lastReadTouch rp (touchLog absOf resolveOf ⟨files0, []⟩ ops) with
    | some b =>
      simp only []
      constructor
      · intro hb; rw [hb]
      · intro hb; injection hb
    | none => simp
  · exact runOp_readFiles absOf resolveOf

theorem chatStreamGo_all_fail (parseArgs : String → Option JValue) (u : String → String)
    (attempts : Nat → AttemptResult) :
    ∀ (remaining a : Nat) (sleeps : List Nat),
      (∀ k, k ≤ remaining → (attempts (a + k)).isConnError = true) →
      chatStreamGo parseArgs u attempts remaining a sleeps =
        ((if (mergeEvents (attempts (a + remaining)).events).1 != "" then
            Except.ok
              { role := "assistant",
                content := some ((mergeEvents (attempts (a + remaining)).events).1 ++
                  "\n\n[Response interrupted - connection error]"),
                tool_calls := none }
          else
            Except.error ("API connection failed after " ++ toString (a + remaining + 1) ++
              " attempts: " ++ (attempts (a + remaining)).errMsg)),
         sleeps.reverse ++ List.range' (a + 1) remaining 1) := by
  intro remaining
  induction remaining with
  | zero =>
    intro a sleeps h
    have h0 := h 0 (Nat.le_refl 0)
    simp only [Nat.add_zero] at h0
    cases hatt : attempts a with
    | success evs => rw [hatt] at h0; simp [AttemptResult.isConnError] at h0
    | connError evs e =>
      unfold chatStreamGo
      rw [hatt]
      simp only [Nat.add_zero, hatt, AttemptResult.events, AttemptResult.errMsg,
        List.range', List.append_nil]
      split <;> simp [toString]
  | succ r ih =>
    intro a sleeps h
    have h0 := h 0 (Nat.zero_le _)
    simp only [Nat.add_zero] at h0
    cases hatt : attempts a with
    | success evs => rw [hatt] at h0; simp [AttemptResult.isConnError] at h0
    | connError evs e =>
      have hstep : chatStreamGo parseArgs u attempts (r + 1) a sleeps =
          chatStreamGo parseArgs u attempts r (a + 1) ((a + 1) :: sleeps) := by
        conv_lhs => rw [chatStreamGo]
        rw [hatt]
      have hrec := ih (a + 1) ((a + 1) :: sleeps)
        (fun k hk => by
          have := h (k + 1) (Nat.succ_le_succ hk)
          rw [show a + (k + 1) = a + 1 + k by omega] at this
          exact this)
      rw [hstep, hrec]
      congr 1
      · rw [show a + 1 + r = a + (r + 1) by omega]
      · rw [List.reverse_cons, List.append_assoc, List.range'_succ]
        simp

/-- C4 counterexample: the content accumulator is re-initialised on every
retry, so content streamed by the FIRST attempt does not survive: with the
first attempt streaming `Hello` before its connection error and the later
attempts streaming nothing, the exhausted call raises the fatal error
instead of returning a truncation-marked Message as the claim requires. -/
theorem chat_stream_first_attempt_content_lost :
    (chatStream (fun _ => none) id 2
        (fun a => if a = 0 then .connError [StreamEvent.content "Hello"] "reset"
                  else .connError [] "reset")).1 =
      Except.error "API connection failed after 3 attempts: reset" ∧
    (mergeEvents [StreamEvent.content "Hello"]).1 = "Hello" ∧
    (chatStream (fun _ => none) id 2
        (fun a => if a = 0 then .connError [StreamEvent.content "Hello"] "reset"
                  else .connError [] "reset")).2 = [1, 2] := by
  refine ⟨rfl, rfl, rfl⟩

/-- C4 amended: `chat_stream` retries connection-level errors up to the cap
with backoff `1 s × (attempt+1)` (the sleep log is `[1, 2, ...]`); when all
attempts fail, what matters is the content streamed by the LAST attempt
(the accumulator is reset per attempt): if it is non-empty the returned
assistant Message is that content suffixed with
`[Response interrupted - connection error]` and carries no tool_calls;
only when the last attempt streamed nothing does the call raise a fatal
error. -/
theorem chat_stream_retry_exhaustion (parseArgs : String → Option JValue)
    (u : String → String) (maxRetries : Nat) (attempts : Nat → AttemptResult)
    (h : ∀ k, k ≤ maxRetries → (attempts k).isConnError = true) :
    (chatStream parseArgs u maxRetries attempts).2 = List.range' 1 maxRetries 1 ∧
    ((mergeEvents (attempts maxRetries).events).1 ≠ "" →
      (chatStream parseArgs u maxRetries attempts).1 =
        Except.ok
          { role := "assistant",
            content := some ((mergeEvents (attempts maxRetries).events).1 ++
              "\n\n[Response interrupted - connection error]"),
            tool_calls := none }) ∧
    ((mergeEvents (attempts maxRetries).events).1 = "" →
      (chatStream parseArgs u maxRetries attempts).1 =
        Except.error ("API connection failed after " ++ toString (maxRetries + 1) ++
          " attempts: " ++ (attempts maxRetries).errMsg)) := by
  have hall := chatStreamGo_all_fail parseArgs u attempts maxRetries 0 []
    (fun k hk => by simpa using h k hk)
  rw [show (0 : Nat) + maxRetries = maxRetries by omega] at hall
  unfold chatStream
  rw [hall]
  refine ⟨by simp, ?_, ?_⟩
  · intro hne
    have hb : ((mergeEvents (attempts maxRetries).events).1 != "") = true := by
      simpa using hne
    simp [hb]
  · intro heq
    have hb : ((mergeEvents (attempts maxRetries).events).1 != "") = false := by
      simpa using heq
    simp [hb]

/-- Witness for C4's amended statement: two failing attempts whose last one
streamed `partial`. -/
theorem chat_stream_retry_exhaustion_witness :
    (chatStream (fun _ => none) id 1
        (fun _ => AttemptResult.connError [StreamEvent.content "partial"] "reset")).1 =
      Except.ok
        { role := "assistant",
          content := some ("partial" ++ "\n\n[Response interrupted - connection error]"),
          tool_calls := none } := by
  have := (chat_stream_retry_exhaustion (fun _ => none) id 1
    (fun _ => AttemptResult.connError [StreamEvent.content "partial"] "reset")
    (fun k _ => rfl)).2.1 (by decide)
  simpa using this

theorem tcLookup_map_update (m : List (Nat × TCData)) (idx : Nat) (g : TCData → TCData)
    (e : TCData) (h : tcLookup m idx = some e) :
    tcLookup (m.map (fun p => if p.1 == idx then (idx, g p.2) else p)) idx = some (g e) := by
  induction m with
  | nil => simp [tcLookup] at h
  | cons p t ih =>
    cases hb : (p.1 == idx) with
    | true =>
      simp only [tcLookup, List.find?_cons, hb] at h
      injection h with h2
      simp only [List.map_cons, hb, if_true, tcLookup, List.find?_cons, beq_self_eq_true]
      rw [h2]
    | false =>
      simp only [tcLookup, List.find?_cons, hb] at h ⊢
      simp only [List.map_cons, hb, Bool.false_eq_true, if_false, tcLookup, List.find?_cons, hb]
      exact ih h

theorem tcLookup_append_new (m : List (Nat × TCData)) (idx : Nat) (x : TCData)
    (h : tcLookup m idx = none) :
    tcLookup (m ++ [(idx, x)]) idx = some x := by
  induction m with
  | nil => simp [tcLookup, List.find?_cons]
  | cons p t ih =>
    cases hb : (p.1 == idx) with
    | true =>
      simp only [tcLookup, List.find?_cons, hb] at h
      exact absurd h (by simp)
    | false =>
      simp only [tcLookup, List.find?_cons, hb] at h ⊢
      simp only [List.cons_append, List.find?_cons, hb]
      exact ih h

theorem tcLookup_map_update_ne (m : List (Nat × TCData)) (i idx : Nat) (hne : i ≠ idx)
    (g : TCData → TCData) :
    tcLookup (m.map (fun p => if p.1 == i then (i, g p.2) else p)) idx = tcLookup m idx := by
  induction m with
  | nil => rfl
  | cons p t ih =>
    cases hb : (p.1 == i) with
    | true =>
      have hp : p.1 = i := by simpa using hb
      have hni : (i == idx) = false := by simp [hne]
      have hnp : (p.1 == idx) = false := by simp [hp, hne]
      simp only [List.map_cons, hb, if_true, tcLookup, List.find?_cons, hni, hnp]
      exact ih
    | false =>
      simp only [List.map_cons, hb, Bool.false_eq_true, if_false, tcLookup, List.find?_cons]
      cases hpidx : (p.1 == idx) with
      | true => rfl
      | false => exact ih

theorem tcLookup_append_ne (m : List (Nat × TCData)) (i idx : Nat) (hne : i ≠ idx)
    (x : TCData) (h : tcLookup m idx = none) :
    tcLookup (m ++ [(i, x)]) idx = none := by
  induction m with
  | nil => simp [tcLookup, List.find?_cons, hne, fun he : i = idx => hne he]
  | cons p t ih =>
    cases hb : (p.1 == idx) with
    | true =>
      simp only [tcLookup, List.find?_cons, hb] at h
      exact absurd h (by simp)
    | false =>
      simp only [tcLookup, List.find?_cons, hb] at h ⊢
      simp only [List.cons_append, List.find?_cons, hb]
      exact ih h

theorem tcLookup_mergeEvent_same (acc : String × List (Nat × TCData)) (idx : Nat)
    (id name args : String) :
    tcLookup (mergeEvent acc (.toolCall idx id name args)).2 idx =
      applyFrags (tcLookup acc.2 idx) [(id, name, args)] := by
  cases hfind : acc.2.find? (fun p => p.1 == idx) with
  | some q =>
    have htc : tcLookup acc.2 idx = some q.2 := by simp [tcLookup, hfind]
    simp only [mergeEvent, hfind]
    rw [tcLookup_map_update acc.2 idx (fun d => applyDelta d id name args) q.2 htc, htc]
    rfl
  | none =>
    have htc : tcLookup acc.2 idx = none := by simp [tcLookup, hfind]
    simp only [mergeEvent, hfind]
    rw [tcLookup_append_new acc.2 idx _ htc, htc]
    rfl

theorem tcLookup_mergeEvent_ne (acc : String × List (Nat × TCData)) (i idx : Nat)
    (hne : i ≠ idx) (id name args : String) :
    tcLookup (mergeEvent acc (.toolCall i id name args)).2 idx = tcLookup acc.2 idx := by
  cases hfind : acc.2.find? (fun p => p.1 == i) with
  | some q =>
    simp only [mergeEvent, hfind]
    exact tcLookup_map_update_ne acc.2 i idx hne (fun d => applyDelta d id name args)
  | none =>
    simp only [mergeEvent, hfind]
    cases htc : tcLookup acc.2 idx with
    | some e =>
      obtain ⟨p, hp, hpe⟩ : ∃ p, acc.2.find? (fun p => p.1 == idx) = some p ∧ p.2 = e := by
        unfold tcLookup at htc
        cases hf : acc.2.find? (fun p => p.1 == idx) with
        | none => rw [hf] at htc; simp at htc
        | some p => rw [hf] at htc; exact ⟨p, rfl, by injection htc⟩
      unfold tcLookup
      rw [List.find?_append, hp]
      simp [hpe]
    | none => exact tcLookup_append_ne acc.2 i idx hne _ htc

theorem tcLookup_foldl_mergeEvent (events : List StreamEvent) :
    ∀ (acc : String × List (Nat × TCData)) (idx : Nat),
      tcLookup (events.foldl mergeEvent acc).2 idx =
        applyFrags (tcLookup acc.2 idx) (fragsOf idx events) := by
  induction events with
  | nil => intro acc idx; rfl
  | cons ev rest ih =>
    intro acc idx
    rw [List.foldl_cons, ih]
    cases ev with
    | content s => rfl
    | toolCall i id name args =>
      by_cases hi : i = idx
      · rw [hi]
        rw [tcLookup_mergeEvent_same]
        rw [show fragsOf idx (.toolCall idx id name args :: rest) =
          (id, name, args) :: fragsOf idx rest by simp [fragsOf]]
        cases htc : tcLookup acc.2 idx <;> rfl
      · rw [tcLookup_mergeEvent_ne acc i idx hi]
        rw [show fragsOf idx (.toolCall i id name args :: rest) = fragsOf idx rest by
          simp [fragsOf, hi]]

theorem applyDelta_args (e : TCData) (i n a : String) :
    (applyDelta e i n a).args = e.args ++ a := by
  unfold applyDelta
  by_cases ha : a = ""
  · simp [ha]
  · simp [ha]

theorem applyFrags_some (fs : List (String × String × String)) :
    ∀ e : TCData,
      applyFrags (some e) fs =
        some ⟨(fs.map (fun f => f.1)).foldl (fun acc s => if s != "" then s else acc) e.id,
              (fs.map (fun f => f.2.1)).foldl (fun acc s => if s != "" then s else acc) e.name,
              (fs.map (fun f => f.2.2)).foldl (fun acc s => acc ++ s) e.args⟩ := by
  induction fs with
  | nil => intro e; rfl
  | cons f fs ih =>
    intro e
    rw [show applyFrags (some e) (f :: fs) =
      applyFrags (some (applyDelta e f.1 f.2.1 f.2.2)) fs from rfl, ih]
    simp only [List.map_cons, List.foldl_cons]
    rw [show (applyDelta e f.1 f.2.1 f.2.2).id =
      (if f.1 != "" then f.1 else e.id) from rfl]
    rw [show (applyDelta e f.1 f.2.1 f.2.2).name =
      (if f.2.1 != "" then f.2.1 else e.name) from rfl]
    rw [applyDelta_args]

theorem latch_nil_start (s : String) : (if s != "" then s else "") = s := by
  by_cases h : s = "" <;> simp [h]

theorem mergeEvents_lookup (events : List StreamEvent) (idx : Nat) :
    tcLookup (mergeEvents events).2 idx =
      (if fragsOf idx events = [] then none
       else some ⟨lastNonEmpty ((fragsOf idx events).map (fun f => f.1)),
                  lastNonEmpty ((fragsOf idx events).map (fun f => f.2.1)),
                  joinFrags ((fragsOf idx events).map (fun f => f.2.2))⟩) := by
  unfold mergeEvents
  rw [tcLookup_foldl_mergeEvent events ("", []) idx,
    show tcLookup ([] : List (Nat × TCData)) idx = none from rfl]
  cases hf : fragsOf idx events with
  | nil => rfl
  | cons f fs =>
    simp only [reduceCtorEq, if_false]
    rw [show applyFrags none (f :: fs) =
      applyFrags (some (applyDelta ⟨f.1, "", ""⟩ f.1 f.2.1 f.2.2)) fs from rfl,
      applyFrags_some]
    unfold lastNonEmpty joinFrags
    simp only [List.map_cons, List.foldl_cons]
    rw [show (applyDelta ⟨f.1, "", ""⟩ f.1 f.2.1 f.2.2).id =
      (if f.1 != "" then f.1 else f.1) from rfl, ite_self]
    rw [show (applyDelta ⟨f.1, "", ""⟩ f.1 f.2.1 f.2.2).name =
      (if f.2.1 != "" then f.2.1 else "") from rfl]
    rw [applyDelta_args]
    rw [show ((⟨f.1, "", ""⟩ : TCData).args ++ f.2.2) = ("" ++ f.2.2) from rfl,
      show ("" ++ f.2.2 : String) = f.2.2 from rfl]
    rw [latch_nil_start f.1]

mutual
theorem stringLeaves_unescape (u : String → String) :
    (v : JValue) → stringLeaves (unescapeJson u v) = (stringLeaves v).map u
  | .str s => by simp [unescapeJson, stringLeaves]
  | .num n => by simp [unescapeJson, stringLeaves]
  | .bool b => by simp [unescapeJson, stringLeaves]
  | .null => by simp [unescapeJson, stringLeaves]
  | .arr xs => by
    simp only [unescapeJson, stringLeaves]
    exact stringLeavesArr_unescape u xs
  | .obj xs => by
    simp only [unescapeJson, stringLeaves]
    exact stringLeavesObj_unescape u xs

theorem stringLeavesArr_unescape (u : String → String) :
    (xs : JArr) → stringLeavesArr (unescapeJArr u xs) = (stringLeavesArr xs).map u
  | .nil => by simp [unescapeJArr, stringLeavesArr]
  | .cons v tl => by
    simp only [unescapeJArr, stringLeavesArr, List.map_append]
    rw [stringLeaves_unescape u v, stringLeavesArr_unescape u tl]

theorem stringLeavesObj_unescape (u : String → String) :
    (xs : JObj) → stringLeavesObj (unescapeJObj u xs) = (stringLeavesObj xs).map u
  | .nil => by simp [unescapeJObj, stringLeavesObj]
  | .cons k v tl => by
    simp only [unescapeJObj, stringLeavesObj, List.map_append]
    rw [stringLeaves_unescape u v, stringLeavesObj_unescape u tl]
end

/-- C5 counterexample: `id` is not latched the first time it appears — a
later fragment with a non-empty `id` overwrites it.  Two fragments for
index 0 with ids `a` then `b` merge to id `b`, not the first-seen `a` the
claim requires (arguments still concatenate and `name` latches its only
non-empty value). -/
theorem tool_call_id_overwritten_not_latched :
    tcLookup (mergeEvents [.toolCall 0 "a" "f" "x", .toolCall 0 "b" "" "y"]).2 0 =
      some ⟨"b", "f", "xy"⟩ ∧ ("b" : String) ≠ "a" :=
  ⟨rfl, by decide⟩

/-- C5 amended: the stream's tool-call fragments merge into a map keyed by
the integer index; for each index the accumulated entry's `arguments` is
the concatenation of that index's argument fragments in delta order, while
`id` and `name` hold the LAST non-empty value seen (each non-empty
occurrence overwrites, rather than latching the first); at stream end an
empty accumulated arguments string yields the empty object without
parsing, a parsed value is recursively HTML-unescaped, and the unescape
rewrites exactly the string leaves by `u`. -/
theorem tool_call_fragment_merge (events : List StreamEvent) (idx : Nat)
    (parseArgs : String → Option JValue) (u : String → String) :
    (tcLookup (mergeEvents events).2 idx =
      (if fragsOf idx events = [] then none
       else some ⟨lastNonEmpty ((fragsOf idx events).map (fun f => f.1)),
                  lastNonEmpty ((fragsOf idx events).map (fun f => f.2.1)),
                  joinFrags ((fragsOf idx events).map (fun f => f.2.2))⟩)) ∧
    buildArgs parseArgs u "" = .obj .nil ∧
    (∀ s v, s ≠ "" → parseArgs s = some v → buildArgs parseArgs u s = unescapeJson u v) ∧
    (∀ s, s ≠ "" → parseArgs s = none → buildArgs parseArgs u s = .obj .nil) ∧
    (∀ v, stringLeaves (unescapeJson u v) = (stringLeaves v).map u) := by
  refine ⟨mergeEvents_lookup events idx, rfl, ?_, ?_, stringLeaves_unescape u⟩
  · intro s v hs hv
    have hb : (s == "") = false := by simp [hs]
    simp [buildArgs, hb, hv]
  · intro s hs hv
    have hb : (s == "") = false := by simp [hs]
    simp [buildArgs, hb, hv]

/-- Witness for C5's amended statement: a two-fragment stream for index 0
plus a concrete parse/unescape pair. -/
theorem tool_call_fragment_merge_witness :
    tcLookup (mergeEvents [.toolCall 0 "i1" "fn" "\x7b\"a\"", .toolCall 0 "" "" ": 1\x7d"]).2 0 =
      some ⟨"i1", "fn", "\x7b\"a\": 1\x7d"⟩ ∧
    buildArgs (fun _ => none) id "" = .obj .nil ∧
    buildArgs (fun _ => some (.str "x&amp;y")) (fun _ => "x&y") "s" =
      .str "x&y" := by
  refine ⟨?_, ?_, ?_⟩
  · rw [(tool_call_fragment_merge
      [.toolCall 0 "i1" "fn" "\x7b\"a\"", .toolCall 0 "" "" ": 1\x7d"] 0
      (fun _ => none) id).1]
    rfl
  · exact (tool_call_fragment_merge [] 0 (fun _ => none) id).2.1
  · exact (tool_call_fragment_merge [] 0 (fun _ => some (.str "x&amp;y"))
      (fun _ => "x&y")).2.2.1 "s" (.str "x&amp;y") (by decide) rfl

end GrokCode
